import Mathlib

/-!
Formal model of the AWS inventory dashboard (madankumar-t/mydashboard).

The definitions below are shallow embeddings of the TypeScript source:

* `ResponseCache` model — `frontend/src/lib/api.ts` (class `ResponseCache`):
  a JS `Map` is modelled as an association list in insertion order
  (head = oldest entry); `Map.set` on an existing key updates in place,
  on a fresh key appends; `Map.delete` removes; `keys().next().value`
  is the head key.
* `auth` model — `frontend/src/lib/auth.ts` (`canAccessService`,
  `getStoredSession`).
* retry model — the API client variant with retry logic
  (`retryRequest`, `isRetryableError`, `MAX_RETRIES`, `RETRY_DELAY`,
  `RETRYABLE_STATUS_CODES`).
* API client effect model — `getInventory` / `getAccounts` as pure
  functions that return the list of HTTP calls they issue next to their
  result and the updated client-side response cache.
* Refresh trigger model — `handleRefresh` from
  `frontend/src/app/dashboard/layout.tsx`, together with definitions
  modelled from the spec for the parts of the repository whose code is
  not included in the source tree (the `refreshInventory` API method and
  the backend refresh `onDemand` entry point and DynamoDB reconcile
  write).

Timestamps (`Date.now()`) are modelled as natural numbers.
-/

namespace Dashboard

/-! ## Response cache (`frontend/src/lib/api.ts`, class `ResponseCache`) -/

/-- `CACHE_TTL = 5 * 60 * 1000` (5 minutes, in milliseconds). -/
def CACHE_TTL : Nat := 5 * 60 * 1000

/-- `CACHE_MAX_SIZE = 100`. -/
def CACHE_MAX_SIZE : Nat := 100

/-- One cache entry: `{ data, timestamp }`. `α` is the cached payload type
(`any` in the source). -/
structure CacheEntry (α : Type) where
  data : α
  timestamp : Nat
deriving Repr, DecidableEq

/-- The backing `Map<string, CacheEntry>`: an association list in insertion
order, head = oldest (first-inserted) entry. -/
abbrev CacheMap (α : Type) := List (String × CacheEntry α)

/-- JS `Map.get`. -/
def mapGet {α : Type} (m : CacheMap α) (k : String) : Option (CacheEntry α) :=
  (m.find? (fun p => p.1 = k)).map (·.2)

/-- JS `Map.delete` (by key). -/
def mapDelete {α : Type} (m : CacheMap α) (k : String) : CacheMap α :=
  m.filter (fun p => p.1 ≠ k)

/-- JS `Map.set`: update in place if the key is present, append otherwise. -/
def mapSet {α : Type} (m : CacheMap α) (k : String) (v : CacheEntry α) : CacheMap α :=
  if m.any (fun p => p.1 = k) then
    m.map (fun p => if p.1 = k then (k, v) else p)
  else
    m ++ [(k, v)]

/-- `generateKey(url, params)`: `url?k1=v1&k2=v2` with keys sorted. -/
def generateKey (url : String) (params : List (String × String)) : String :=
  let sortedParams :=
    ((params.map Prod.fst).mergeSort (fun a b => a ≤ b)).map
      (fun k => k ++ "=" ++ ((params.find? (fun p => p.1 = k)).map Prod.snd).getD "")
  url ++ "?" ++ String.intercalate "&" sortedParams

/-- `ResponseCache.get(url, params)` at time `now`: returns the cached data
and the cache state after the call (an expired entry is deleted). -/
def cacheGet {α : Type} (m : CacheMap α) (url : String)
    (params : List (String × String)) (now : Nat) : Option α × CacheMap α :=
  match mapGet m (generateKey url params) with
  | none => (none, m)
  | some entry =>
    if now - entry.timestamp > CACHE_TTL then
      (none, mapDelete m (generateKey url params))
    else
      (some entry.data, m)

/-- The cache state after `set`'s eviction step: when the cache is full,
the oldest (first-inserted) entry is deleted first. -/
def evictIfFull {α : Type} (m : CacheMap α) : CacheMap α :=
  if CACHE_MAX_SIZE ≤ m.length then
    match m.head? with
    | some (firstKey, _) => mapDelete m firstKey
    | none => m
  else m

/-- `ResponseCache.set(url, params, data)` at time `now`: evicts the oldest
entry when the cache is full, then inserts. -/
def cacheSet {α : Type} (m : CacheMap α) (url : String)
    (params : List (String × String)) (data : α) (now : Nat) : CacheMap α :=
  mapSet (evictIfFull m) (generateKey url params) ⟨data, now⟩

/-- `ResponseCache.clear()`. -/
def cacheClear {α : Type} (_ : CacheMap α) : CacheMap α := []

/-- `ResponseCache.invalidate(pattern?)`: drop every key containing the
pattern; with no pattern, clear everything. -/
def cacheInvalidate {α : Type} (m : CacheMap α) (pattern : Option String) : CacheMap α :=
  match pattern with
  | none => cacheClear m
  | some pat => m.filter (fun p => ¬(String.containsSubstr p.1 pat))

/-! ## Authentication helpers (`frontend/src/lib/auth.ts`) -/

/-- An `AuthSession` as stored in the `aws-inventory-session` localStorage
slot. `expiresAt` is `Option Int` because a JSON object may lack the field
(`none` = `undefined`); JS number truthiness makes `0` falsy. -/
structure AuthSession where
  idToken : String
  accessToken : String
  refreshToken : String
  expiresAt : Option Int
  groups : List String
  username : String
deriving Repr, DecidableEq

/-- The content of the localStorage slot as seen by `getStoredSession`:
the slot may be empty (`getItem` returns `null`), hold a string that
`JSON.parse` rejects (or that parses to a value on which accessing
`.expiresAt` throws, e.g. `null`), or parse to a session object. -/
inductive SessionSlot where
  | absent
  | malformed
  | parsed (s : AuthSession)
deriving Repr, DecidableEq

/-- JS truthiness of the optional numeric `expiresAt` field:
`undefined` and `0` are falsy. -/
def truthyExpires : Option Int → Bool
  | none => false
  | some t => t ≠ 0

/-- `getStoredSession()` at time `now` (`Date.now()`): parse the stored
value; return it only if `session.expiresAt && session.expiresAt > Date.now()`;
a missing, malformed, or expired value yields `null` (the `try/catch`
swallows parse errors, so the function never throws). -/
def getStoredSession (slot : SessionSlot) (now : Nat) : Option AuthSession :=
  match slot with
  | .absent => none
  | .malformed => none
  | .parsed s =>
    if truthyExpires s.expiresAt ∧ s.expiresAt.getD 0 > (now : Int) then
      some s
    else
      none

/-- `hasGroup(groups, requiredGroup)`. -/
def hasGroup (groups : List String) (requiredGroup : String) : Bool :=
  groups.contains requiredGroup

/-- `canAccessService(groups, service)` from `frontend/src/lib/auth.ts`. -/
def canAccessService (groups : List String) (service : String) : Bool :=
  if groups.contains "admins" ∨ groups.contains "infra-admins" then
    true
  else if groups.contains "read-only" ∨ groups.contains "cloud-readonly" then
    ["ec2", "s3"].contains service
  else if groups.contains "security" then
    ["iam", "ec2", "s3", "rds"].contains service
  else
    false

/-! ## Retry logic (API client variant with retry support:
`MAX_RETRIES`, `RETRY_DELAY`, `RETRYABLE_STATUS_CODES`,
`isRetryableError`, `retryRequest`) -/

/-- `MAX_RETRIES = 3`. -/
def MAX_RETRIES : Nat := 3

/-- `RETRY_DELAY = 1000` (1 second, in milliseconds). -/
def RETRY_DELAY : Nat := 1000

/-- `RETRYABLE_STATUS_CODES = [408, 429, 500, 502, 503, 504]`. -/
def RETRYABLE_STATUS_CODES : List Nat := [408, 429, 500, 502, 503, 504]

/-- `APIError`: message, optional HTTP status code, optional error code. -/
structure APIError where
  message : String
  statusCode : Option Nat
  code : Option String
deriving Repr, DecidableEq

/-- `isRetryableError(error)`: `if (!error.statusCode) return false;`
(JS: both `undefined` and `0` are falsy) then membership in
`RETRYABLE_STATUS_CODES`. -/
def isRetryableError (e : APIError) : Bool :=
  match e.statusCode with
  | none => false
  | some c => if c = 0 then false else RETRYABLE_STATUS_CODES.contains c

/-- `retryRequest(requestFn, retries)`: the request function is modelled as
a map from the attempt index (0-based) to its outcome. The result pairs the
final outcome with the list of backoff delays slept between attempts, each
computed as `RETRY_DELAY * (MAX_RETRIES - retries + 1)` exactly as in the
source. -/
def retryRequest {α : Type} (requestFn : Nat → Except APIError α) :
    Nat → Nat → Except APIError α × List Nat
  | retries, attempt =>
    match requestFn attempt, retries with
    | .ok v, _ => (.ok v, [])
    | .error e, 0 => (.error e, [])
    | .error e, r + 1 =>
      if isRetryableError e then
        let rest := retryRequest requestFn r (attempt + 1)
        (rest.1, RETRY_DELAY * (MAX_RETRIES - (r + 1) + 1) :: rest.2)
      else
        (.error e, [])

/-- A call of `retryRequest` with the default `retries = MAX_RETRIES`. -/
def retryRequestTop {α : Type} (requestFn : Nat → Except APIError α) :
    Except APIError α × List Nat :=
  retryRequest requestFn MAX_RETRIES 0

/-- A request that always fails with the 429 rate-limit error produced by
`handleError` for throttling responses. -/
def always429 : Nat → Except APIError Unit :=
  fun _ => .error ⟨"Too many requests. Please wait a moment and try again.",
                   some 429, some "RATE_LIMIT"⟩

/-! ## API client effect model (`frontend/src/lib/api.ts`, class
`InventoryAPI`)

Each method is modelled as a pure function that receives the server's
response behaviour, the client-side response cache and the current time,
and returns its result together with the updated cache and the list of
HTTP calls it issued. -/

/-- `ServiceType` from `frontend/src/types/index.ts`. -/
inductive ServiceType where
  | ec2 | s3 | rds | dynamodb | iam | vpc | eks | ecs
  | lambdaSvc | elb | cloudfront | route53 | sqs | sns
deriving Repr, DecidableEq

/-- The wire name of a service (the `ServiceType` string literal). -/
def serviceName : ServiceType → String
  | .ec2 => "ec2" | .s3 => "s3" | .rds => "rds" | .dynamodb => "dynamodb"
  | .iam => "iam" | .vpc => "vpc" | .eks => "eks" | .ecs => "ecs"
  | .lambdaSvc => "lambda" | .elb => "elb" | .cloudfront => "cloudfront"
  | .route53 => "route53" | .sqs => "sqs" | .sns => "sns"

/-- HTTP method of an issued request. -/
inductive HttpMethod where
  | get | post
deriving Repr, DecidableEq

/-- One HTTP call issued by the API client. -/
structure HttpCall where
  method : HttpMethod
  path : String
  params : List (String × String)
deriving Repr, DecidableEq

/-- An AWS resource item as returned by the read API (identity fields of
`AWSResource`; the open service-specific payload is a string map). -/
structure AWSResource where
  id : String
  region : String
  accountId : String
  attrs : List (String × String)
deriving Repr, DecidableEq

/-- `InventoryResponse` — the `{items, total, ...}` shape returned by the
`/inventory` endpoint. -/
structure InventoryResponse where
  service : ServiceType
  total : Nat
  page : Nat
  size : Nat
  items : List AWSResource
deriving Repr, DecidableEq

/-- Options object of `getInventory`. -/
structure InventoryOptions where
  page : Option Nat := none
  size : Option Nat := none
  search : Option String := none
  accounts : Option (List String) := none
  regions : Option (List String) := none
  useCache : Option Bool := none
deriving Repr, DecidableEq

/-- Result of one API-client method call: the returned value, the response
cache afterwards, and the HTTP calls issued. -/
structure APICallResult (α β : Type) where
  result : α
  cache : CacheMap β
  calls : List HttpCall
deriving Repr

/-- JS truthiness used by `if (options.search)`: only a nonempty string
passes. -/
def truthyStr : Option String → Bool
  | none => false
  | some s => s ≠ ""

/-- `options.accounts?.length` / `options.regions?.length` truthiness:
present and nonempty. -/
def truthyList : Option (List String) → Bool
  | none => false
  | some l => l ≠ []

/-- The query params built by `getInventory`: `service`, `page`
(`options.page ?? 1`), `size` (`options.size ?? 50`), then `search`,
`accounts` (comma-joined), `regions` (comma-joined) when present. -/
def inventoryParams (service : ServiceType) (options : InventoryOptions) :
    List (String × String) :=
  [("service", serviceName service),
   ("page", toString (options.page.getD 1)),
   ("size", toString (options.size.getD 50))]
  ++ (if truthyStr options.search then [("search", options.search.getD "")] else [])
  ++ (if truthyList options.accounts then
        [("accounts", String.intercalate "," (options.accounts.getD []))] else [])
  ++ (if truthyList options.regions then
        [("regions", String.intercalate "," (options.regions.getD []))] else [])

/-- `getInventory(service, options)`: check the response cache (unless
`useCache === false`), otherwise `GET /inventory` and cache the response.
`server` models the read API's response to the issued query. -/
def getInventory (service : ServiceType) (options : InventoryOptions)
    (server : List (String × String) → InventoryResponse)
    (cache : CacheMap InventoryResponse) (now : Nat) :
    APICallResult InventoryResponse InventoryResponse :=
  let params := inventoryParams service options
  if options.useCache ≠ some false then
    match cacheGet cache "/inventory" params now with
    | (some cached, cache') => ⟨cached, cache', []⟩
    | (none, cache') =>
      let data := server params
      ⟨data, cacheSet cache' "/inventory" params data now,
       [⟨.get, "/inventory", params⟩]⟩
  else
    let data := server params
    ⟨data, cache, [⟨.get, "/inventory", params⟩]⟩

/-- `getAccounts()`: `GET /accounts`, returning `res.data.accounts || []`
(`server` yields `none` when the response carries no `accounts` field).
The response cache is not consulted and not written. -/
def getAccounts (server : Option (List (String × String)))
    (cache : CacheMap InventoryResponse) :
    APICallResult (List (String × String)) InventoryResponse :=
  ⟨server.getD [], cache, [⟨.get, "/accounts", []⟩]⟩

/-! ## Refresh trigger (`handleRefresh` in
`frontend/src/app/dashboard/layout.tsx`, plus spec-modelled parts) -/

/-- A collection scope built from the optional service/account filters of
an on-demand refresh; `none` means "all" (absent filter). Regions are not
filterable on this path, so a scope always covers all regions. -/
structure CollectionScope where
  services : Option (List ServiceType)
  accounts : Option (List String)
deriving Repr, DecidableEq

/-- Whether a scope's service filter covers a given service
(absent filter = all services). -/
def scopeHasService (sc : CollectionScope) (s : ServiceType) : Bool :=
  match sc.services with
  | none => true
  | some l => l.contains s

/-- Whether a scope's account filter covers a given account
(absent filter = all accounts). -/
def scopeHasAccount (sc : CollectionScope) (a : String) : Bool :=
  match sc.accounts with
  | none => true
  | some l => l.contains a

/-- Two optional filter lists intersect; `none` = the full (nonempty)
universe. -/
def filtersMeet {α : Type} [DecidableEq α] :
    Option (List α) → Option (List α) → Bool
  | none, none => true
  | none, some l => ¬l.isEmpty
  | some l, none => ¬l.isEmpty
  | some l, some m => l.any (fun x => m.contains x)

/-- Two scopes overlap when they share at least one
(service, account, region) triple, i.e. both their service filters and
their account filters intersect (regions are always "all"). -/
def scopeOverlap (a b : CollectionScope) : Bool :=
  filtersMeet a.services b.services ∧ filtersMeet a.accounts b.accounts

/-- The scope `onDemand` builds from its optional filters: a single-service
filter when a service is given, the account-id list when given. -/
def mkScope (service : Option ServiceType) (accountIds : Option (List String)) :
    CollectionScope :=
  ⟨service.map (fun s => [s]), accountIds⟩

/-- The acceptance token returned by the refresh trigger: either the
request was accepted (with a run id) or an overlapping run is already in
progress. -/
inductive AcceptanceToken where
  | accepted (runId : Nat)
  | alreadyInProgress
deriving Repr, DecidableEq

/-- The refresh trigger's in-process registry of in-flight runs. -/
structure TriggerState where
  inFlight : List CollectionScope
  nextRunId : Nat
deriving Repr, DecidableEq

/-- Modelled from the spec: the Refresh Trigger's
`onDemand(service?, accountIds?) -> acceptance token` entry point, whose
implementation (the backend refresh handler) is not included in the source
tree. It builds a scope from the optional filters (absent filter = "all"),
rejects the request with an "already in progress" token when the scope
overlaps a currently in-flight run's scope, and otherwise accepts it and
records the scope as in flight. It returns a token in every case and never
raises. -/
def onDemand (service : Option ServiceType) (accountIds : Option (List String))
    (st : TriggerState) : AcceptanceToken × TriggerState :=
  let sc := mkScope service accountIds
  if st.inFlight.any (fun r => scopeOverlap r sc) then
    (.alreadyInProgress, st)
  else
    (.accepted st.nextRunId,
     { inFlight := sc :: st.inFlight, nextRunId := st.nextRunId + 1 })

/-- Modelled from the spec: the API client's
`refreshInventory(service?, accounts?)` method, whose body is not included
in the source tree (the repository's DynamoDB-integration notes record that
it was added to `frontend/src/lib/api.ts` and that the
`POST /inventory/refresh` endpoint it calls delegates to the refresh
trigger). Per the spec's `requestRefresh`, it forwards the service and
account filters to the Refresh Trigger's `onDemand`. -/
def refreshInventory (service : Option ServiceType)
    (accounts : Option (List String)) (st : TriggerState) :
    AcceptanceToken × TriggerState :=
  onDemand service accounts st

/-- The snackbar severity set by `handleRefresh`. -/
inductive Severity where
  | success | error
deriving Repr, DecidableEq

/-- Outcome of one `handleRefresh` invocation: the token obtained from the
refresh request, the trigger state afterwards, the snackbar shown, and the
final `refreshing` flag (reset in the `finally` block). -/
structure RefreshOutcome where
  token : AcceptanceToken
  trigger : TriggerState
  snackbarSeverity : Severity
  refreshing : Bool
deriving Repr, DecidableEq

/-- The account-filter argument `handleRefresh` passes:
`selectedAccounts.length > 0 ? selectedAccounts : undefined`. -/
def accountsArg (selectedAccounts : List String) : Option (List String) :=
  if selectedAccounts.length > 0 then some selectedAccounts else none

/-- `handleRefresh` from `frontend/src/app/dashboard/layout.tsx`: set
`refreshing`, call `api.refreshInventory(service, selectedAccounts.length >
0 ? selectedAccounts : undefined)`, show the success snackbar when the call
resolves (the modelled `refreshInventory` always resolves with a token),
and clear `refreshing` in `finally`. -/
def handleRefresh (service : ServiceType) (selectedAccounts : List String)
    (st : TriggerState) : RefreshOutcome :=
  let r := refreshInventory (some service) (accountsArg selectedAccounts) st
  { token := r.1
    trigger := r.2
    snackbarSeverity := .success
    refreshing := false }

/-! ## Inventory store reconciliation (modelled from the spec) -/

/-- A stored `ResourceRecord` row of the Inventory Store
(`pk = service#accountId#region`, `sk = resourceId`): identity fields,
the open attribute payload, and the `collectedAt` run identifier of the
collection run that wrote it. -/
structure StoredRecord where
  service : String
  accountId : String
  region : String
  resourceId : String
  attrs : List (String × String)
  collectedAt : Nat
deriving Repr, DecidableEq

/-- A (service, accountId, region) triple — the unit of collection. -/
structure Triple where
  service : String
  accountId : String
  region : String
deriving Repr, DecidableEq

/-- The store key of a record: its (service, accountId, region, resourceId)
tuple, which the data model requires to be unique. -/
def keyOf (r : StoredRecord) : String × String × String × String :=
  (r.service, r.accountId, r.region, r.resourceId)

/-- The key of resource `rid` under triple `t`. -/
def tripleKey (t : Triple) (rid : String) : String × String × String × String :=
  (t.service, t.accountId, t.region, rid)

/-- Whether a record belongs to a triple. -/
def matchesTriple (r : StoredRecord) (t : Triple) : Bool :=
  r.service = t.service ∧ r.accountId = t.accountId ∧ r.region = t.region

/-- One freshly-listed resource for a triple, as produced by a collector:
its resourceId and attribute payload. -/
structure ListedResource where
  resourceId : String
  attrs : List (String × String)
deriving Repr, DecidableEq

/-- Modelled from the spec: a single `put` into the Inventory Store —
writing the same (service, accountId, region, resourceId) tuple again
overwrites the prior value. -/
def putRecord (store : List StoredRecord) (r : StoredRecord) : List StoredRecord :=
  r :: store.filter (fun s => keyOf s ≠ keyOf r)

/-- Modelled from the spec: write a batch of records, one `put` each. -/
def writeBatch : List StoredRecord → List StoredRecord → List StoredRecord
  | store, [] => store
  | store, r :: rs => writeBatch (putRecord store r) rs

/-- Tag a triple's fresh listing with the run identifier, producing the
records to write (`collectedAt = runId` on every record of the batch). -/
def tagRecords (t : Triple) (runId : Nat) (listing : List ListedResource) :
    List StoredRecord :=
  listing.map (fun it =>
    ⟨t.service, t.accountId, t.region, it.resourceId, it.attrs, runId⟩)

/-- Modelled from the spec: delete the stale records of a triple — those
whose triple matches and whose `collectedAt` differs from the new run
identifier. -/
def deleteStale (store : List StoredRecord) (t : Triple) (runId : Nat) :
    List StoredRecord :=
  store.filter (fun s => ¬(matchesTriple s t ∧ s.collectedAt ≠ runId))

/-- Modelled from the spec: the full-replace-and-reconcile commit of a
successful triple collection (the backend refresh handler's DynamoDB write
is not included in the source tree) — write all newly-seen records tagged
with the run identifier first, then delete the triple's records whose
`collectedAt` differs from it. -/
def commitTriple (store : List StoredRecord) (t : Triple) (runId : Nat)
    (listing : List ListedResource) : List StoredRecord :=
  deleteStale (writeBatch store (tagRecords t runId listing)) t runId

/-! ## Helper lemmas -/

theorem length_mapDelete_le {α : Type} (m : CacheMap α) (k : String) :
    (mapDelete m k).length ≤ m.length :=
  List.length_filter_le _ _

theorem length_mapSet_le {α : Type} (m : CacheMap α) (k : String)
    (v : CacheEntry α) : (mapSet m k v).length ≤ m.length + 1 := by
  unfold mapSet
  split
  · simp
  · simp

theorem length_mapDelete_head {α : Type} (p : String × CacheEntry α)
    (rest : CacheMap α) : (mapDelete (p :: rest) p.1).length ≤ rest.length := by
  unfold mapDelete
  simp only [List.filter_cons]
  simp only [ne_eq, not_true_eq_false, decide_False, if_false]
  exact List.length_filter_le _ _

theorem length_evictIfFull {α : Type} (m : CacheMap α)
    (hm : m.length ≤ CACHE_MAX_SIZE) :
    (evictIfFull m).length < CACHE_MAX_SIZE := by
  unfold evictIfFull
  split
  · rename_i hfull
    rcases m with _ | ⟨p, rest⟩
    · simp [CACHE_MAX_SIZE] at hfull
    · simp only [List.head?_cons]
      have h1 := length_mapDelete_head p rest
      have h2 : (p :: rest).length = rest.length + 1 := by simp
      rw [h2] at hm
      omega
  · rename_i hnot
    omega

theorem mapGet_mapDelete_self {α : Type} (m : CacheMap α) (k : String) :
    mapGet (mapDelete m k) k = none := by
  unfold mapGet mapDelete
  rw [List.find?_eq_none.mpr]
  · rfl
  · intro p hp
    have := List.of_mem_filter hp
    simpa using this

/-! ## Claim theorems -/

/-- C8: every `ResponseCache` operation (`get`, `set`, `clear`,
`invalidate`) preserves the invariant that the cache holds at most
`CACHE_MAX_SIZE = 100` entries (`set` evicts the oldest entry before
inserting when the cache is full), and `get` never returns an entry
written more than `CACHE_TTL` (5 minutes) ago — such an entry is deleted
and `null` is returned. -/
theorem responseCache_bounded_and_fresh {α : Type} (m : CacheMap α)
    (url : String) (params : List (String × String)) (data : α) (now : Nat)
    (pat : Option String) (hm : m.length ≤ CACHE_MAX_SIZE) :
    (cacheGet m url params now).2.length ≤ CACHE_MAX_SIZE
  ∧ (cacheSet m url params data now).length ≤ CACHE_MAX_SIZE
  ∧ (cacheClear m).length ≤ CACHE_MAX_SIZE
  ∧ (cacheInvalidate m pat).length ≤ CACHE_MAX_SIZE
  ∧ (∀ d, (cacheGet m url params now).1 = some d →
      ∃ e, mapGet m (generateKey url params) = some e ∧
        now - e.timestamp ≤ CACHE_TTL ∧ e.data = d)
  ∧ (∀ e, mapGet m (generateKey url params) = some e →
      now - e.timestamp > CACHE_TTL →
        (cacheGet m url params now).1 = none ∧
        mapGet (cacheGet m url params now).2 (generateKey url params) = none) := by
  refine ⟨?_, ?_, ?_, ?_, ?_, ?_⟩
  · unfold cacheGet
    rcases hE : mapGet m (generateKey url params) with _ | e
    · exact hm
    · dsimp only
      by_cases hex : now - e.timestamp > CACHE_TTL
      · rw [if_pos hex]
        exact le_trans (length_mapDelete_le _ _) hm
      · rw [if_neg hex]
        exact hm
  · unfold cacheSet
    have h1 := length_mapSet_le (evictIfFull m) (generateKey url params)
      (⟨data, now⟩ : CacheEntry α)
    have h2 := length_evictIfFull m hm
    omega
  · simp [cacheClear]
  · rcases pat with _ | p
    · simp [cacheInvalidate, cacheClear]
    · exact le_trans (List.length_filter_le _ _) hm
  · intro d hd
    unfold cacheGet at hd
    rcases hE : mapGet m (generateKey url params) with _ | e
    · rw [hE] at hd
      simp at hd
    · rw [hE] at hd
      dsimp only at hd
      by_cases hex : now - e.timestamp > CACHE_TTL
      · rw [if_pos hex] at hd
        simp at hd
      · rw [if_neg hex] at hd
        refine ⟨e, rfl, by omega, ?_⟩
        simpa using hd
  · intro e hE hexp
    unfold cacheGet
    rw [hE]
    dsimp only
    rw [if_pos hexp]
    exact ⟨rfl, mapGet_mapDelete_self m _⟩

/-- Witness for C8 at a concrete cache state. -/
theorem responseCache_bounded_and_fresh_witness :
    ([((generateKey "/inventory" []), (⟨(0 : Nat), 0⟩ : CacheEntry Nat))] :
        CacheMap Nat).length ≤ CACHE_MAX_SIZE
  ∧ ((cacheSet [((generateKey "/inventory" []), (⟨(0 : Nat), 0⟩ : CacheEntry Nat))]
        "/inventory" [] (1 : Nat) 5).length ≤ CACHE_MAX_SIZE) := by
  have h := responseCache_bounded_and_fresh
    (α := Nat) [((generateKey "/inventory" []), ⟨0, 0⟩)] "/inventory" [] 1 5 none
    (by simp [CACHE_MAX_SIZE])
  exact ⟨by simp [CACHE_MAX_SIZE], h.2.1⟩

/-- C9: `getStoredSession` is total (the `try/catch` swallows every parse
failure) and returns a session exactly when the stored slot parses to that
session and its `expiresAt` field is strictly greater than the current
time; a missing, malformed, or expired value yields `null`. -/
theorem getStoredSession_total_unexpired (slot : SessionSlot) (now : Nat)
    (s : AuthSession) :
    getStoredSession slot now = some s ↔
      slot = .parsed s ∧ ∃ t : Int, s.expiresAt = some t ∧ t > (now : Int) := by
  cases slot with
  | absent => simp [getStoredSession]
  | malformed => simp [getStoredSession]
  | parsed s' =>
    by_cases hc : truthyExpires s'.expiresAt ∧ s'.expiresAt.getD 0 > (now : Int)
    · have hval : getStoredSession (.parsed s') now = some s' := by
        simp only [getStoredSession]
        rw [if_pos hc]
      rw [hval]
      constructor
      · intro h
        obtain rfl : s' = s := Option.some.inj h
        refine ⟨rfl, ?_⟩
        rcases hE : s'.expiresAt with _ | t
        · rw [hE] at hc
          exact absurd hc.1 (by simp [truthyExpires])
        · refine ⟨t, rfl, ?_⟩
          have := hc.2
          rw [hE] at this
          simpa using this
      · rintro ⟨hps, t, hE, ht⟩
        obtain rfl : s' = s := by injection hps
        rfl
    · have hval : getStoredSession (.parsed s') now = none := by
        simp only [getStoredSession]
        rw [if_neg hc]
      rw [hval]
      constructor
      · intro h; cases h
      · rintro ⟨hps, t, hE, ht⟩
        obtain rfl : s' = s := by injection hps
        exfalso
        apply hc
        rw [hE]
        refine ⟨?_, by simpa using ht⟩
        simp only [truthyExpires]
        simp only [decide_eq_true_eq] at *
        omega

/-- C10: the group-based access matrix of `canAccessService` — admins (or
infra-admins) access everything; otherwise read-only/cloud-readonly access
exactly ec2 and s3; otherwise security accesses exactly iam, ec2, s3 and
rds; none of these groups means no access at all. -/
theorem canAccessService_group_matrix (groups : List String) (service : String) :
    (("admins" ∈ groups ∨ "infra-admins" ∈ groups) →
        canAccessService groups service = true)
  ∧ (("admins" ∉ groups ∧ "infra-admins" ∉ groups ∧ "security" ∉ groups ∧
        ("read-only" ∈ groups ∨ "cloud-readonly" ∈ groups)) →
        (canAccessService groups service = true ↔
          service = "ec2" ∨ service = "s3"))
  ∧ (("admins" ∉ groups ∧ "infra-admins" ∉ groups ∧ "read-only" ∉ groups ∧
        "cloud-readonly" ∉ groups ∧ "security" ∈ groups) →
        (canAccessService groups service = true ↔
          service = "iam" ∨ service = "ec2" ∨ service = "s3" ∨ service = "rds"))
  ∧ (("admins" ∉ groups ∧ "infra-admins" ∉ groups ∧ "read-only" ∉ groups ∧
        "cloud-readonly" ∉ groups ∧ "security" ∉ groups) →
        canAccessService groups service = false) := by
  simp only [canAccessService, List.elem_iff]
  refine ⟨?_, ?_, ?_, ?_⟩
  · intro h; simp [h]
  · rintro ⟨h1, h2, h3, h4⟩
    simp [h1, h2, h3, h4, List.mem_cons, or_comm]
  · rintro ⟨h1, h2, h3, h4, h5⟩
    simp [h1, h2, h3, h4, h5]
  · rintro ⟨h1, h2, h3, h4, h5⟩
    simp [h1, h2, h3, h4, h5]

/-- Witness for C10: one concrete instance per access rule. -/
theorem canAccessService_group_matrix_witness :
    canAccessService ["admins"] "vpc" = true
  ∧ (canAccessService ["read-only"] "rds" = true ↔
      ("rds" = "ec2" ∨ "rds" = "s3"))
  ∧ (canAccessService ["security"] "rds" = true ↔
      ("rds" = "iam" ∨ "rds" = "ec2" ∨ "rds" = "s3" ∨ "rds" = "rds"))
  ∧ canAccessService ["developers"] "ec2" = false := by
  refine ⟨?_, ?_, ?_, ?_⟩
  · exact (canAccessService_group_matrix ["admins"] "vpc").1 (by simp)
  · exact (canAccessService_group_matrix ["read-only"] "rds").2.1
      (by refine ⟨by simp, by simp, by simp, by simp⟩)
  · exact (canAccessService_group_matrix ["security"] "rds").2.2.1
      (by refine ⟨by simp, by simp, by simp, by simp, by simp⟩)
  · exact (canAccessService_group_matrix ["developers"] "ec2").2.2.2
      (by refine ⟨by simp, by simp, by simp, by simp, by simp⟩)

/-- C5: `getInventory` performs at most one remote interaction, and every
interaction it performs is a `GET` of the `/inventory` endpoint (whose
response is the `{items, total, ...}` shape): it never invokes the
refresh/collection endpoint and never issues a mutating (POST) call. -/
theorem getInventory_reads_only_inventory (service : ServiceType)
    (options : InventoryOptions)
    (server : List (String × String) → InventoryResponse)
    (cache : CacheMap InventoryResponse) (now : Nat) :
    ((getInventory service options server cache now).calls.all
      (fun c => c.method = HttpMethod.get ∧ c.path = "/inventory"))
  ∧ (getInventory service options server cache now).calls.length ≤ 1 := by
  unfold getInventory
  by_cases hu : options.useCache ≠ some false
  · rw [if_pos hu]
    rcases hg : cacheGet cache "/inventory" (inventoryParams service options) now
      with ⟨_ | d, cache'⟩
    · simp
    · simp
  · rw [if_neg hu]
    simp

/-- C6: `getAccounts` has no side effect on the shared response cache and
does not read it — each call leaves the cache unchanged, returns a result
that does not depend on the cache, and always fetches afresh with exactly
one `GET /accounts` request. -/
theorem getAccounts_uncached (server : Option (List (String × String)))
    (cache cache' : CacheMap InventoryResponse) :
    (getAccounts server cache).cache = cache
  ∧ (getAccounts server cache).result = (getAccounts server cache').result
  ∧ (getAccounts server cache).calls = [⟨HttpMethod.get, "/accounts", []⟩] := by
  refine ⟨rfl, rfl, rfl⟩

/-- C1: the dashboard's refresh path delegates — `handleRefresh` invokes
the API client's `refreshInventory` with the current service and account
filters, which forwards them to the Refresh Trigger's `onDemand` entry
point; the call yields an acceptance token (and thus the success snackbar)
rather than raising. -/
theorem handleRefresh_delegates_onDemand (service : ServiceType)
    (selectedAccounts : List String) (st : TriggerState) :
    (handleRefresh service selectedAccounts st).token =
      (onDemand (some service) (accountsArg selectedAccounts) st).1
  ∧ (handleRefresh service selectedAccounts st).trigger =
      (onDemand (some service) (accountsArg selectedAccounts) st).2
  ∧ (handleRefresh service selectedAccounts st).snackbarSeverity =
      Severity.success :=
  ⟨rfl, rfl, rfl⟩

/-- C7: absent filter means all — with an empty account selection,
`handleRefresh` requests the refresh with the account filter omitted and
the resulting scope covers every account; with a nonempty selection,
exactly that list is passed as the filter. -/
theorem refresh_absent_filter_means_all (service : ServiceType)
    (st : TriggerState) :
    ((handleRefresh service [] st).token = (onDemand (some service) none st).1)
  ∧ (∀ sel : List String, sel ≠ [] →
      (handleRefresh service sel st).token =
        (onDemand (some service) (some sel) st).1)
  ∧ (∀ a : String, scopeHasAccount (mkScope (some service) none) a = true) := by
  refine ⟨rfl, ?_, fun a => rfl⟩
  intro sel hsel
  unfold handleRefresh refreshInventory accountsArg
  have hlen : sel.length > 0 := List.length_pos.mpr hsel
  rw [if_pos hlen]

/-- Witness for C7 at a concrete nonempty selection. -/
theorem refresh_absent_filter_means_all_witness :
    (handleRefresh ServiceType.ec2 ["111122223333"] ⟨[], 0⟩).token =
      (onDemand (some ServiceType.ec2) (some ["111122223333"]) ⟨[], 0⟩).1 :=
  (refresh_absent_filter_means_all ServiceType.ec2 ⟨[], 0⟩).2.1
    ["111122223333"] (by decide)

theorem listsMeet_comm {α : Type} [DecidableEq α] (l m : List α) :
    l.any (fun x => m.contains x) = m.any (fun x => l.contains x) := by
  rw [Bool.eq_iff_iff]
  simp only [List.any_eq_true, List.elem_iff]
  constructor
  · rintro ⟨x, hx, hxm⟩
    exact ⟨x, hxm, hx⟩
  · rintro ⟨x, hx, hxl⟩
    exact ⟨x, hxl, hx⟩

theorem filtersMeet_comm {α : Type} [DecidableEq α] (a b : Option (List α)) :
    filtersMeet a b = filtersMeet b a := by
  rcases a with _ | l <;> rcases b with _ | m <;>
    simp only [filtersMeet, listsMeet_comm]

theorem scopeOverlap_comm (a b : CollectionScope) :
    scopeOverlap a b = scopeOverlap b a := by
  unfold scopeOverlap
  rw [filtersMeet_comm a.services, filtersMeet_comm a.accounts]

/-- C4: no overlapping on-demand refreshes — while a run whose scope
overlaps the requested scope is in flight, `onDemand` does not accept the
request: it returns the "already in progress" token immediately and leaves
the registry unchanged; and it preserves the invariant that the in-flight
scopes are pairwise non-overlapping, so two refreshes for an overlapping
scope are never in flight concurrently. -/
theorem onDemand_rejects_overlapping (service : Option ServiceType)
    (accountIds : Option (List String)) (st : TriggerState) :
    ((st.inFlight.any
        (fun r => scopeOverlap r (mkScope service accountIds))) = true →
      (onDemand service accountIds st).1 = AcceptanceToken.alreadyInProgress ∧
      (onDemand service accountIds st).2 = st)
  ∧ (st.inFlight.Pairwise (fun a b => scopeOverlap a b = false) →
      (onDemand service accountIds st).2.inFlight.Pairwise
        (fun a b => scopeOverlap a b = false)) := by
  constructor
  · intro h
    unfold onDemand
    rw [if_pos h]
    exact ⟨rfl, rfl⟩
  · intro hp
    unfold onDemand
    by_cases hg : st.inFlight.any
        (fun r => scopeOverlap r (mkScope service accountIds)) = true
    · rw [if_pos hg]
      exact hp
    · rw [if_neg hg]
      refine List.Pairwise.cons ?_ hp
      intro b hb
      have hall : ∀ r ∈ st.inFlight,
          ¬ scopeOverlap r (mkScope service accountIds) = true := by
        simpa [List.any_eq_true] using hg
      rw [scopeOverlap_comm]
      exact Bool.not_eq_true _ ▸ (Bool.eq_false_iff.mpr (hall b hb))

/-- Witness for C4: a concrete in-flight full scope rejects an overlapping
ec2 request and the registry invariant holds afterwards. -/
theorem onDemand_rejects_overlapping_witness :
    ((onDemand (some ServiceType.ec2) none
        ⟨[⟨none, none⟩], 1⟩).1 = AcceptanceToken.alreadyInProgress ∧
      (onDemand (some ServiceType.ec2) none ⟨[⟨none, none⟩], 1⟩).2 =
        ⟨[⟨none, none⟩], 1⟩)
  ∧ (onDemand (some ServiceType.ec2) none
      ⟨[⟨none, none⟩], 1⟩).2.inFlight.Pairwise
        (fun a b => scopeOverlap a b = false) :=
  ⟨(onDemand_rejects_overlapping (some ServiceType.ec2) none
      ⟨[⟨none, none⟩], 1⟩).1 (by decide),
   (onDemand_rejects_overlapping (some ServiceType.ec2) none
      ⟨[⟨none, none⟩], 1⟩).2 (by simp)⟩

theorem mem_of_mem_writeBatch :
    ∀ (recs store : List StoredRecord) (x : StoredRecord),
      x ∈ writeBatch store recs → x ∈ store ∨ x ∈ recs := by
  intro recs
  induction recs with
  | nil =>
    intro store x hx
    exact Or.inl hx
  | cons r rs ih =>
    intro store x hx
    rcases ih (putRecord store r) x hx with hput | hrs
    · unfold putRecord at hput
      rcases List.mem_cons.mp hput with rfl | hfilter
      · exact Or.inr (List.mem_cons_self _ _)
      · exact Or.inl (List.mem_of_mem_filter hfilter)
    · exact Or.inr (List.mem_cons_of_mem _ hrs)

theorem mem_writeBatch_of_unmatched :
    ∀ (recs store : List StoredRecord) (x : StoredRecord),
      x ∈ store → (∀ r ∈ recs, keyOf r ≠ keyOf x) →
      x ∈ writeBatch store recs := by
  intro recs
  induction recs with
  | nil =>
    intro store x hx _
    exact hx
  | cons r rs ih =>
    intro store x hx hkeys
    refine ih (putRecord store r) x ?_ (fun r' hr' => hkeys r' (List.mem_cons_of_mem _ hr'))
    unfold putRecord
    refine List.mem_cons_of_mem _ (List.mem_filter.mpr ⟨hx, ?_⟩)
    have : keyOf x ≠ keyOf r := fun h => hkeys r (List.mem_cons_self _ _) h.symm
    simpa using this

theorem writeBatch_key_surviving :
    ∀ (recs store : List StoredRecord) (k : String × String × String × String),
      (∃ r ∈ recs, keyOf r = k) →
      ∃ s ∈ writeBatch store recs, keyOf s = k ∧ s ∈ recs := by
  intro recs
  induction recs with
  | nil =>
    rintro store k ⟨r, hr, _⟩
    cases hr
  | cons r rs ih =>
    intro store k hk
    by_cases hrs : ∃ r' ∈ rs, keyOf r' = k
    · obtain ⟨s, hsWB, hsk, hsrs⟩ := ih (putRecord store r) k hrs
      exact ⟨s, hsWB, hsk, List.mem_cons_of_mem _ hsrs⟩
    · have hrk : keyOf r = k := by
        obtain ⟨r', hr', hk'⟩ := hk
        rcases List.mem_cons.mp hr' with rfl | hmem
        · exact hk'
        · exact absurd ⟨r', hmem, hk'⟩ hrs
      refine ⟨r, ?_, hrk, List.mem_cons_self _ _⟩
      refine mem_writeBatch_of_unmatched rs (putRecord store r) r
        (List.mem_cons_self _ _) ?_
      intro r' hr' heq
      exact hrs ⟨r', hr', heq.trans hrk⟩

/-- C2: reconciliation completeness (modelled from the spec, the backend
write path being absent from the source tree) — after a successful triple
collection commits, a resourceId exists in the Inventory Store under that
exact (service, accountId, region) triple if and only if it is present in
the new listing; the run identifier is fresh (no prior record carries
it). -/
theorem reconciliation_completeness (store : List StoredRecord) (t : Triple)
    (runId : Nat) (listing : List ListedResource) (rid : String)
    (hfresh : ∀ s ∈ store, s.collectedAt ≠ runId) :
    (∃ s ∈ commitTriple store t runId listing, keyOf s = tripleKey t rid) ↔
      rid ∈ listing.map ListedResource.resourceId := by
  constructor
  · rintro ⟨s, hs, hkey⟩
    unfold commitTriple deleteStale at hs
    rw [List.mem_filter] at hs
    obtain ⟨hsWB, hpred⟩ := hs
    have hkey' : s.service = t.service ∧ s.accountId = t.accountId ∧
        s.region = t.region ∧ s.resourceId = rid := by
      simpa [keyOf, tripleKey, Prod.ext_iff] using hkey
    have hmt : matchesTriple s t = true := by
      simp [matchesTriple, hkey'.1, hkey'.2.1, hkey'.2.2.1]
    have hca : s.collectedAt = runId := by
      simp only [decide_eq_true_eq, not_and, not_not] at hpred
      exact hpred (by simpa using hmt)
    rcases mem_of_mem_writeBatch _ _ _ hsWB with hstore | hrecs
    · exact absurd hca (hfresh s hstore)
    · unfold tagRecords at hrecs
      rw [List.mem_map] at hrecs
      obtain ⟨it, hit, hs_eq⟩ := hrecs
      rw [List.mem_map]
      refine ⟨it, hit, ?_⟩
      have : s.resourceId = it.resourceId := by rw [← hs_eq]
      rw [← this]
      exact hkey'.2.2.2
  · intro hr
    rw [List.mem_map] at hr
    obtain ⟨it, hit, hid⟩ := hr
    have hkey : ∃ r ∈ tagRecords t runId listing, keyOf r = tripleKey t rid := by
      refine ⟨⟨t.service, t.accountId, t.region, it.resourceId, it.attrs, runId⟩,
        ?_, ?_⟩
      · unfold tagRecords
        exact List.mem_map.mpr ⟨it, hit, rfl⟩
      · simp [keyOf, tripleKey, hid]
    obtain ⟨s, hsWB, hskey, hsrecs⟩ := writeBatch_key_surviving _ store _ hkey
    refine ⟨s, ?_, hskey⟩
    unfold commitTriple deleteStale
    rw [List.mem_filter]
    refine ⟨hsWB, ?_⟩
    have hca : s.collectedAt = runId := by
      unfold tagRecords at hsrecs
      rw [List.mem_map] at hsrecs
      obtain ⟨it', _, hs_eq⟩ := hsrecs
      rw [← hs_eq]
    simp [hca]

/-- Witness for C2 at a concrete store, triple, fresh run id and listing:
`i-new` is in the new listing (and so stored), while the key check follows
by evaluation. -/
theorem reconciliation_completeness_witness :
    (∃ s ∈ commitTriple
        [⟨"ec2", "111122223333", "us-east-1", "i-old", [], 1⟩]
        ⟨"ec2", "111122223333", "us-east-1"⟩ 2
        [⟨"i-new", []⟩],
      keyOf s = tripleKey ⟨"ec2", "111122223333", "us-east-1"⟩ "i-new") ↔
      "i-new" ∈ ([⟨"i-new", []⟩] : List ListedResource).map
        ListedResource.resourceId :=
  reconciliation_completeness
    [⟨"ec2", "111122223333", "us-east-1", "i-old", [], 1⟩]
    ⟨"ec2", "111122223333", "us-east-1"⟩ 2 [⟨"i-new", []⟩] "i-new"
    (by decide)

theorem retryRequest_ok {α : Type} (f : Nat → Except APIError α) (r a : Nat)
    (v : α) (h : f a = .ok v) : retryRequest f r a = (.ok v, []) := by
  cases r with
  | zero =>
    unfold retryRequest
    rw [h]
  | succ r' =>
    unfold retryRequest
    rw [h]

theorem retryRequest_error_stop {α : Type} (f : Nat → Except APIError α)
    (a : Nat) (e : APIError) (h : f a = .error e) :
    retryRequest f 0 a = (.error e, []) := by
  unfold retryRequest
  rw [h]

theorem retryRequest_error_retry {α : Type} (f : Nat → Except APIError α)
    (r a : Nat) (e : APIError) (h : f a = .error e)
    (hre : isRetryableError e = true) :
    retryRequest f (r + 1) a =
      ((retryRequest f r (a + 1)).1,
        RETRY_DELAY * (MAX_RETRIES - (r + 1) + 1) :: (retryRequest f r (a + 1)).2) := by
  conv_lhs => unfold retryRequest
  rw [h]
  simp [hre]

theorem retryRequest_error_noretry {α : Type} (f : Nat → Except APIError α)
    (r a : Nat) (e : APIError) (h : f a = .error e)
    (hre : isRetryableError e = false) :
    retryRequest f (r + 1) a = (.error e, []) := by
  unfold retryRequest
  rw [h]
  simp only [hre, Bool.false_eq_true, if_false]

theorem retryRequest_delays_shape {α : Type} (f : Nat → Except APIError α) :
    ∀ (r a : Nat), r ≤ MAX_RETRIES →
      ∃ n, n ≤ r ∧ (retryRequest f r a).2 =
        (List.range n).map (fun i => RETRY_DELAY * (MAX_RETRIES - r + 1 + i)) := by
  intro r
  induction r with
  | zero =>
    intro a _
    refine ⟨0, le_refl 0, ?_⟩
    rcases h0 : f a with e | v
    · rw [retryRequest_error_stop f a e h0]
      rfl
    · rw [retryRequest_ok f 0 a v h0]
      rfl
  | succ r ih =>
    intro a hr
    rcases h0 : f a with e | v
    · by_cases hre : isRetryableError e = true
      · obtain ⟨n, hn, hd⟩ := ih (a + 1) (by omega)
        refine ⟨n + 1, by omega, ?_⟩
        rw [retryRequest_error_retry f r a e h0 hre]
        dsimp only
        rw [hd, List.range_succ_eq_map, List.map_cons, List.map_map]
        have hfun : ∀ i ∈ List.range n,
            RETRY_DELAY * (MAX_RETRIES - r + 1 + i) =
              ((fun i => RETRY_DELAY * (MAX_RETRIES - (r + 1) + 1 + i)) ∘
                Nat.succ) i := by
          intro i _
          simp only [Function.comp_apply]
          congr 1
          omega
        rw [List.map_congr_left hfun]
      · refine ⟨0, Nat.zero_le _, ?_⟩
        rw [retryRequest_error_noretry f r a e h0 (by simpa using hre)]
        rfl
    · exact ⟨0, Nat.zero_le _, by rw [retryRequest_ok f (r + 1) a v h0]; rfl⟩

/-- C3 counterexample: on a request that always fails with the 429
rate-limit error, the client sleeps the delays 1000, 2000, 3000 ms — an
arithmetic progression, not a geometric one (2000·2000 ≠ 1000·3000), so
the delay between attempts does not grow exponentially. -/
theorem retry_backoff_not_exponential :
    (retryRequestTop always429).2 = [1000, 2000, 3000]
  ∧ ¬ (∀ d1 d2 d3 : Nat, (retryRequestTop always429).2 = [d1, d2, d3] →
        d2 * d2 = d1 * d3) := by
  have h : (retryRequestTop always429).2 = [1000, 2000, 3000] := by decide
  refine ⟨h, ?_⟩
  intro hgeo
  have := hgeo 1000 2000 3000 h
  omega

/-- C3 (amended): for every request, the client retries failures with
bounded, linearly growing backoff — the i-th delay is
`RETRY_DELAY * (1 + i)` and at most `MAX_RETRIES = 3` retries happen; when
every attempt fails with a retryable (e.g. 429 throttling) error, all
three delays (1000, 2000, 3000 ms) are slept and the last error is
surfaced to the caller. -/
theorem retryRequest_linear_bounded {α : Type} (f : Nat → Except APIError α) :
    (∃ n, n ≤ MAX_RETRIES ∧ (retryRequestTop f).2 =
        (List.range n).map (fun i => RETRY_DELAY * (1 + i)))
  ∧ ((∀ i, i ≤ MAX_RETRIES →
        ∃ e, f i = Except.error e ∧ isRetryableError e = true) →
      (retryRequestTop f).2 = [1000, 2000, 3000] ∧
        (retryRequestTop f).1 = f MAX_RETRIES) := by
  constructor
  · obtain ⟨n, hn, hd⟩ :=
      retryRequest_delays_shape f MAX_RETRIES 0 (le_refl _)
    refine ⟨n, hn, ?_⟩
    rw [retryRequestTop, hd]
    refine List.map_congr_left ?_
    intro i _
    simp [MAX_RETRIES]
  · intro hall
    obtain ⟨e0, h0, hr0⟩ := hall 0 (by decide)
    obtain ⟨e1, h1, hr1⟩ := hall 1 (by decide)
    obtain ⟨e2, h2, hr2⟩ := hall 2 (by decide)
    obtain ⟨e3, h3, hr3⟩ := hall 3 (by decide)
    have s3 : retryRequest f 3 0 =
        ((retryRequest f 2 1).1, 1000 :: (retryRequest f 2 1).2) := by
      have := retryRequest_error_retry f 2 0 e0 h0 hr0
      simpa [MAX_RETRIES, RETRY_DELAY] using this
    have s2 : retryRequest f 2 1 =
        ((retryRequest f 1 2).1, 2000 :: (retryRequest f 1 2).2) := by
      have := retryRequest_error_retry f 1 1 e1 h1 hr1
      simpa [MAX_RETRIES, RETRY_DELAY] using this
    have s1 : retryRequest f 1 2 =
        ((retryRequest f 0 3).1, 3000 :: (retryRequest f 0 3).2) := by
      have := retryRequest_error_retry f 0 2 e2 h2 hr2
      simpa [MAX_RETRIES, RETRY_DELAY] using this
    have s0 : retryRequest f 0 3 = (.error e3, []) :=
      retryRequest_error_stop f 3 e3 h3
    have htop : retryRequestTop f = (.error e3, [1000, 2000, 3000]) := by
      rw [retryRequestTop]
      show retryRequest f 3 0 = _
      rw [s3, s2, s1, s0]
    rw [htop]
    exact ⟨rfl, by rw [show MAX_RETRIES = 3 from rfl, h3]⟩

/-- Witness for C3 (amended) at the always-throttled request. -/
theorem retryRequest_linear_bounded_witness :
    (retryRequestTop always429).2 = [1000, 2000, 3000] ∧
      (retryRequestTop always429).1 = always429 MAX_RETRIES :=
  (retryRequest_linear_bounded always429).2
    (fun i _ => ⟨⟨"Too many requests. Please wait a moment and try again.",
      some 429, some "RATE_LIMIT"⟩, rfl, by decide⟩)

end Dashboard
